import Mathlib

/-!
Verification development for the LuxPricer comparable-listings retrieval and
price-estimation engine.  Python floats are modelled by exact rationals (ℚ);
Python dictionaries by structures whose `Option` fields encode absent keys.
The sample standard deviation (`statistics.stdev`), which involves a square
root, is abstracted as an explicit function parameter `stdevFn`, so every
definition stays computable.  Display-level rounding performed by the Python
code at its return boundary (`round(x, 2)`, `round(x, 3)`) is omitted: result
records carry the exact values the code computes.
-/

namespace LuxPricer

/-! ## Similarity scorer (src/Backend/utils/pricing_logic.py, calculate_similarity_score)

An item as seen by `calculate_similarity_score`: the Python function reads the
five attribute keys with `str(item.get(k, "")).lower()` (designer, model,
material, color) and `item.get("size")` (size).  A missing key is encoded as
`""`; a key present with value `None` stringifies to `"None"`, which callers
of the model encode explicitly.  `size` is never stringified, and a size of
`None` and `""` take the same control path, so `""` encodes both.  The code
also accepts list-valued sizes compared by any-overlap; single strings, the
only shape the claims exercise, are compared by lowercase equality exactly as
the code does for singleton lists. -/

structure SimItem where
  designer : String
  model : String
  size : String
  material : String
  color : String
deriving DecidableEq

/-- Python `s.lower()`, character by character (ASCII, which covers every
string the code compares). -/
def pyLower (s : String) : String :=
  ⟨s.data.map Char.toLower⟩

/-- Python `s.strip()`: drop whitespace from both ends. -/
def pyTrim (s : String) : String :=
  ⟨(((s.data.dropWhile Char.isWhitespace).reverse).dropWhile Char.isWhitespace).reverse⟩

/-- Helper for `pySplit`: collect maximal non-whitespace runs; `acc` holds the
current word reversed. -/
def splitWsAux (acc : List Char) : List Char → List String
  | [] => if acc = [] then [] else [⟨acc.reverse⟩]
  | c :: cs =>
      if c.isWhitespace then
        if acc = [] then splitWsAux [] cs else ⟨acc.reverse⟩ :: splitWsAux [] cs
      else splitWsAux (c :: acc) cs

/-- Python `s.split()`: split on whitespace runs, dropping empty pieces. -/
def pySplit (s : String) : List String :=
  splitWsAux [] s.data

/-- Python `set(s.split())`: the distinct words of `s`. -/
def pyWordSet (s : String) : List String :=
  (pySplit s).dedup

/-- Bool prefix test on character lists. -/
def listPrefixOf : List Char → List Char → Bool
  | [], _ => true
  | _ :: _, [] => false
  | a :: as, b :: bs => a == b && listPrefixOf as bs

/-- Bool infix test on character lists. -/
def listInfixOf (n : List Char) : List Char → Bool
  | [] => decide (n = [])
  | c :: cs => listPrefixOf n (c :: cs) || listInfixOf n cs

/-- Python substring test `a in b`. -/
def strContains (a b : String) : Bool :=
  listInfixOf a.data b.data

/-- Cardinality of `wa & wb` for deduplicated word lists. -/
def wordsInter (wa wb : List String) : Nat :=
  (wa.filter (fun w => w ∈ wb)).length

/-- Cardinality of `wa | wb` for deduplicated word lists. -/
def wordsUnion (wa wb : List String) : Nat :=
  (wa ++ wb.filter (fun w => w ∉ wa)).length

/-- Model-name sub-score: Jaccard word overlap with an exact-match bonus and a
length-ratio factor; inputs are already lowercased (the code lowercases before
this computation). -/
def modelScore (ma mb : String) : ℚ :=
  if ma = "" ∨ mb = "" then 0
  else
    let wa := pyWordSet ma
    let wb := pyWordSet mb
    if wa.length = 0 ∨ wb.length = 0 then 0
    else
      let inter := wordsInter wa wb
      let union := wordsUnion wa wb
      if 0 < union then
        if pyTrim ma = pyTrim mb then 1
        else
          let lengthRatio : ℚ := (min wa.length wb.length : ℚ) / (max wa.length wb.length : ℚ)
          ((inter : ℚ) / (union : ℚ)) * ((1 : ℚ)/2 + (1 : ℚ)/2 * lengthRatio)
      else 0

/-- Size sub-score: 0.5 when both sides omit size, 0 when exactly one does,
else lowercase equality (singleton-list any-overlap in the code). -/
def sizeScore (sa sb : String) : ℚ :=
  if sa = "" ∧ sb = "" then (1 : ℚ)/2
  else if sa = "" ∨ sb = "" then 0
  else if pyLower sa = pyLower sb then 1 else 0

/-- Material component (already multiplied into weight 1): the Python code
computes `material_score = 0.5` for a missing side, and then converts with
`1.0 if material_score else 0.0`, so the "neutral" 0.5 is truthy and the
missing-material case contributes the full weight. -/
def materialScore (ma mb : String) : ℚ :=
  if ma = "" ∨ mb = "" then 1
  else if (strContains ma mb ∨ strContains mb ma) ∧ 3 < min ma.length mb.length then 1
  else 0

/-- Color sub-score: 0.5 neutral when a side is missing (kept as 0.5, unlike
material), else substring containment with a minimum-length guard of 2. -/
def colorScore (ca cb : String) : ℚ :=
  if ca = "" ∨ cb = "" then (1 : ℚ)/2
  else if (strContains ca cb ∨ strContains cb ca) ∧ 2 < min ca.length cb.length then 1
  else 0

/-- Weighted attribute similarity of `calculate_similarity_score`: designer is
a hard gate (0 when either side is missing, or when the lowercased designers
differ both literally and after stripping); otherwise the weighted sum of the
sub-scores with weights 0.35 / 0.30 / 0.15 / 0.10 / 0.10. -/
def calculate_similarity_score (a b : SimItem) : ℚ :=
  let da := pyLower a.designer
  let db := pyLower b.designer
  if da = "" ∨ db = "" then 0
  else if da = db ∨ pyTrim da = pyTrim db then
    (35 : ℚ)/100
      + (30 : ℚ)/100 * modelScore (pyLower a.model) (pyLower b.model)
      + (15 : ℚ)/100 * sizeScore a.size b.size
      + (10 : ℚ)/100 * materialScore (pyLower a.material) (pyLower b.material)
      + (10 : ℚ)/100 * colorScore (pyLower a.color) (pyLower b.color)
  else 0

/-! ## Price estimator (src/Backend/utils/pricing_logic.py, estimate_price)

Target items and listings mirror the dictionaries the code reads.  `Option`
fields encode absent keys (for the fields below, a key present with value
`None` takes the same path as an absent key, with one exception documented at
`listingDesigner`).  Floats are exact rationals; the float literal `1e-6` is
modelled as `1/1000000`. -/

structure TargetItem where
  designer : String
  model : String
  condition_rating : String
  size : Option String
  material : Option String
  color : Option String
deriving DecidableEq

structure Listing where
  d_designer : Option String
  d_model : Option String
  d_size : Option String
  d_material : Option String
  d_color : Option String
  top_designer : Option String
  top_model : Option String
  listing_name : Option String
  listing_price : Option ℚ
  condition_rating : Option ℤ
  source_platform : Option String
deriving DecidableEq

/-- CONDITION_RATING_TO_SCORE lookup with DEFAULT_CONDITION_SCORE = 2. -/
def conditionRatingToScore (r : String) : ℤ :=
  if r = "new" then 5
  else if r = "excellent" then 4
  else if r = "very good" then 3
  else if r = "good" then 2
  else if r = "fair" then 1
  else 2

/-- SOURCE_RELIABILITY lookup with DEFAULT_RELIABILITY = 0.6. -/
def sourceReliability (s : Option String) : ℚ :=
  if s = some "Fashionphile" then (95 : ℚ)/100
  else if s = some "Vestiaire Collective" then (75 : ℚ)/100
  else (6 : ℚ)/10

/-- Python `str(x)` for an optional string: `str(None) = "None"`. -/
def pyStr (o : Option String) : String := o.getD "None"

/-- `details.get("designer", listing.get("designer"))`.  (A `designer` key
present in `item_details` with value `None` would suppress the fallback in
Python; such a listing is filtered out by the brand check in every case the
claims touch, so `Option` with `none` = absent is used.) -/
def listingDesigner (l : Listing) : Option String :=
  l.d_designer <|> l.top_designer

/-- `details.get("model", listing.get("model", listing.get("listing_name")))`. -/
def listingModel (l : Listing) : Option String :=
  (l.d_model <|> l.top_model) <|> l.listing_name

/-- The `item_details` dictionary of the target after estimate_price sets
`designer`/`model` and `setdefault`s `size`, `material` and `color` to `None`:
the similarity code stringifies a `None` material/color to `"None"`, while a
`None` size stays `None` (encoded `""`). -/
def enrichTarget (t : TargetItem) : SimItem :=
  ⟨t.designer, t.model, t.size.getD "", t.material.getD "None", t.color.getD "None"⟩

/-- A listing's `item_details` after estimate_price writes `designer` and
`model` into it and `setdefault`s the secondary fields. -/
def enrichListing (l : Listing) : SimItem :=
  ⟨pyStr (listingDesigner l), pyStr (listingModel l), l.d_size.getD "",
    pyStr l.d_material, pyStr l.d_color⟩

/-- Similarity of a listing against the target, as computed inside the
estimate_price loop. -/
def listingSim (t : TargetItem) (l : Listing) : ℚ :=
  calculate_similarity_score (enrichListing l) (enrichTarget t)

/-- A listing enters the similarity loop when its designer equals the target's
(exact comparison, before any lowercasing) and it carries both a price and a
condition rating. -/
def validListing (t : TargetItem) (l : Listing) : Bool :=
  decide (listingDesigner l = some t.designer)
    && l.listing_price.isSome && l.condition_rating.isSome

structure CompData where
  price : ℚ
  condition_score : ℤ
  reliability : ℚ
  similarity : ℚ
deriving DecidableEq

def mkComp (t : TargetItem) (l : Listing) : CompData :=
  { price := l.listing_price.getD 0
    condition_score := l.condition_rating.getD 0
    reliability := sourceReliability l.source_platform
    similarity := listingSim t l }

/-- Similarity scores collected for every brand-matching listing with a price
and a condition rating (`similarity_scores_collected`). -/
def simsCollected (t : TargetItem) (ls : List Listing) : List ℚ :=
  (ls.filter (validListing t)).map (listingSim t)

/-- The retained comparables: similarity at least MIN_SIMILARITY_THRESHOLD =
0.15 (`comparable_items_data`). -/
def comparablesOf (t : TargetItem) (ls : List Listing) : List CompData :=
  ((ls.filter (validListing t)).filter
    (fun l => decide ((15 : ℚ)/100 ≤ listingSim t l))).map (mkComp t)

/-- Prices of listings counted as exact matches: similarity at least
EXACT_MATCH_SIMILARITY_SCORE - 1e-6 (nested inside the ≥ 0.15 branch; the
0.15 bound is implied and kept for fidelity). -/
def exactMatchPrices (t : TargetItem) (ls : List Listing) : List ℚ :=
  (((ls.filter (validListing t)).filter
      (fun l => decide ((15 : ℚ)/100 ≤ listingSim t l))).filter
    (fun l => decide ((8 : ℚ)/10 - 1/1000000 ≤ listingSim t l))).map
      (fun l => l.listing_price.getD 0)

/-- Combined weight of a comparable (`reliability * similarity`). -/
def combinedWeight (c : CompData) : ℚ := c.reliability * c.similarity

/-- Step 4 of estimate_price: `target_condition_score /
avg_scraped_condition_score`, clamped to [MIN_CONDITION_FACTOR = 0.7,
MAX_CONDITION_FACTOR = 1.3]; an average below 1e-6 short-circuits to 1.0. -/
def conditionFactor (target : ℤ) (avg : ℚ) : ℚ :=
  if avg < 1/1000000 then 1
  else max ((7 : ℚ)/10) (min ((13 : ℚ)/10) ((target : ℚ) / avg))

structure TrendEntry where
  designer : String
  model : String
  trend_score : Option ℚ
deriving DecidableEq

/-- get_trend_score: first numeric `trend_score` among entries whose
lowercased designer and model match the target's; otherwise the outcome of
the real-time generation attempt (`get_or_generate_trend_data`, an external
network call modelled by the `gen` parameter, `none` = failure), otherwise
DEFAULT_TREND_SCORE = 0.5. -/
def getTrendScore (trendData : List TrendEntry) (gen : Option ℚ) (d m : String) : ℚ :=
  if d = "" ∨ m = "" then (1 : ℚ)/2
  else
    match trendData.find? (fun e =>
        pyLower e.designer == pyLower d && pyLower e.model == pyLower m
          && e.trend_score.isSome) with
    | some e => e.trend_score.getD ((1 : ℚ)/2)
    | none => gen.getD ((1 : ℚ)/2)

inductive PriceError where
  | missingDetails : PriceError
  | insufficientComparables (listings_considered : Nat)
      (min_similarity : Option ℚ) (max_similarity : Option ℚ) : PriceError
  | zeroWeight : PriceError
deriving DecidableEq

/-- The successful result dictionary, with exact (unrounded) values. -/
structure EstimateResult where
  estimated_price : ℚ
  base_price : ℚ
  comparable_count : ℕ
  exact_match_count : ℕ
  min_exact_match_price : Option ℚ
  max_exact_match_price : Option ℚ
  min_similarity_used : ℚ
  max_similarity_used : ℚ
  avg_condition : ℚ
  target_condition_score : ℤ
  condition_factor : ℚ
  trend_score : ℚ
  trend_factor : ℚ
  price_std_dev : Option ℚ
  coeff_variation : Option ℚ
  variance_factor : ℚ
deriving DecidableEq

/-- estimate_price.  `stdevFn` stands for `statistics.stdev` (its square root
is not rational, so the function is a parameter of the model); `gen` stands
for the outcome of the real-time trend generation attempt. -/
def estimate_price (t : TargetItem) (ls : List Listing)
    (trendData : List TrendEntry) (gen : Option ℚ) (stdevFn : List ℚ → ℚ) :
    Except PriceError EstimateResult :=
  if t.designer = "" ∨ t.model = "" then .error .missingDetails
  else
    let targetScore := conditionRatingToScore (pyTrim (pyLower t.condition_rating))
    let sims := simsCollected t ls
    let comps := comparablesOf t ls
    let exacts := exactMatchPrices t ls
    if comps.length < 5 then
      .error (.insufficientComparables sims.length sims.min? sims.max?)
    else
      let kept := comps.filter (fun c => decide (1/1000000 < combinedWeight c))
      let totalW := (kept.map combinedWeight).sum
      let wPrice := (kept.map (fun c => c.price * combinedWeight c)).sum
      let wCond := (kept.map (fun c => (c.condition_score : ℚ) * combinedWeight c)).sum
      let pricesVar := kept.map (fun c => c.price)
      if totalW < 1/1000000 then .error .zeroWeight
      else
        let basePrice := wPrice / totalW
        let avgCond := wCond / totalW
        let condFactor := conditionFactor targetScore avgCond
        let trendScore := getTrendScore trendData gen t.designer t.model
        let trendFactor := (85 : ℚ)/100 + trendScore * ((115 : ℚ)/100 - (85 : ℚ)/100)
        let priceStdDev : Option ℚ :=
          if 2 ≤ pricesVar.length then some (stdevFn pricesVar) else none
        let coeffVariation : Option ℚ :=
          if 2 ≤ pricesVar.length then
            if 1/1000000 < basePrice then some (stdevFn pricesVar / basePrice) else none
          else none
        let varianceFactor : ℚ :=
          if 2 ≤ pricesVar.length then
            if 1/1000000 < basePrice then
              1 - min (stdevFn pricesVar / basePrice) ((3 : ℚ)/4) * ((1 : ℚ)/10)
            else 1
          else 1
        .ok
          { estimated_price := basePrice * condFactor * trendFactor * varianceFactor
            base_price := basePrice
            comparable_count := comps.length
            exact_match_count := exacts.length
            min_exact_match_price := exacts.min?
            max_exact_match_price := exacts.max?
            min_similarity_used := (kept.map (fun c => c.similarity)).foldl min 1
            max_similarity_used := (kept.map (fun c => c.similarity)).foldl max 0
            avg_condition := avgCond
            target_condition_score := targetScore
            condition_factor := condFactor
            trend_score := trendScore
            trend_factor := trendFactor
            price_std_dev := priceStdDev
            coeff_variation := coeffVariation
            variance_factor := varianceFactor }

/-- Weighted average of comparable prices using `source_reliability ×
similarity` as the weight, written the way the specification states it
(for comparison with the value the code computes). -/
def specBasePrice (comps : List CompData) : ℚ :=
  (comps.map (fun c => c.price * combinedWeight c)).sum / (comps.map combinedWeight).sum

/-- Prices of the retained comparables (the spec's "retained candidate
prices"). -/
def retainedPrices (t : TargetItem) (ls : List Listing) : List ℚ :=
  (comparablesOf t ls).map (fun c => c.price)

/-- Weighted average of comparable condition scores, same weights as the base
price. -/
def specAvgCondition (comps : List CompData) : ℚ :=
  (comps.map (fun c => (c.condition_score : ℚ) * combinedWeight c)).sum
    / (comps.map combinedWeight).sum

/-! ## Helper lemmas for the similarity scorer -/

theorem modelScore_self (ma : String) (h0 : ma ≠ "") (h1 : pyWordSet ma ≠ []) :
    modelScore ma ma = 1 := by
  have hlen : (pyWordSet ma).length ≠ 0 := by
    simpa [List.length_eq_zero] using h1
  have hunion : 0 < wordsUnion (pyWordSet ma) (pyWordSet ma) := by
    have : (pyWordSet ma).length ≤ wordsUnion (pyWordSet ma) (pyWordSet ma) := by
      simp [wordsUnion]
    omega
  simp [modelScore, h0, hlen, hunion]

theorem listPrefixOf_refl (l : List Char) : listPrefixOf l l = true := by
  induction l with
  | nil => rfl
  | cons c cs ih => simp [listPrefixOf, ih]

theorem strContains_self (s : String) : strContains s s = true := by
  rw [strContains]
  cases hs : s.data with
  | nil => rfl
  | cons c cs => simp [listInfixOf, listPrefixOf_refl]

theorem materialScore_self (ma : String) (h : 3 < ma.length) :
    materialScore ma ma = 1 := by
  have hne : ¬ (ma = "" ∨ ma = "") := by
    rintro (rfl | rfl) <;> simp at h
  rw [materialScore, if_neg hne, if_pos]
  exact ⟨Or.inl (strContains_self ma), by simpa using h⟩

theorem colorScore_self (ca : String) (h : 2 < ca.length) :
    colorScore ca ca = 1 := by
  have hne : ¬ (ca = "" ∨ ca = "") := by
    rintro (rfl | rfl) <;> simp at h
  rw [colorScore, if_neg hne, if_pos]
  exact ⟨Or.inl (strContains_self ca), by simpa using h⟩

theorem sizeScore_self (sa : String) (h : sa ≠ "") : sizeScore sa sa = 1 := by
  simp [sizeScore, h]

/-! ## Claims C3 and C4 -/

/-- C3 (amended): for every pair of items whose designer strings differ after
lowercasing AND whitespace-stripping, `calculate_similarity_score` returns
exactly 0, regardless of the other attributes. -/
theorem similarity_brand_gate (a b : SimItem)
    (h : pyTrim (pyLower a.designer) ≠ pyTrim (pyLower b.designer)) :
    calculate_similarity_score a b = 0 := by
  simp only [calculate_similarity_score]
  split_ifs with h0 h1
  · rfl
  · rcases h1 with h1 | h1
    · exact absurd (by rw [h1]) h
    · exact absurd h1 h
  · rfl

/-- Witness for C3's theorem at a concrete input. -/
theorem similarity_brand_gate_witness :
    pyTrim (pyLower "gucci") ≠ pyTrim (pyLower "prada") ∧
      calculate_similarity_score ⟨"gucci", "marmont", "35", "silk", "red"⟩
        ⟨"prada", "marmont", "35", "silk", "red"⟩ = 0 :=
  ⟨by decide, similarity_brand_gate _ _ (by decide)⟩

/-- Counterexample to C3 as stated: the designers `"Gucci "` and `"Gucci"`
differ after lowercasing, yet the similarity is 23/40, not 0 — the code also
accepts whitespace-stripped equality of the lowercased designers. -/
theorem similarity_brand_gate_counterexample :
    pyLower "Gucci " ≠ pyLower "Gucci" ∧
      calculate_similarity_score ⟨"Gucci ", "", "", "", ""⟩ ⟨"Gucci", "", "", "", ""⟩
        = (23 : ℚ)/40 ∧ ((23 : ℚ)/40 ≠ 0) := by
  refine ⟨by decide, by with_unfolding_all decide, by norm_num⟩

/-- C4 (amended): a fully-specified item compared with itself scores exactly
1.0, provided its model contains at least one word, its material is longer
than 3 characters and its color is longer than 2 characters (the code's
minimum-length guards on the substring checks).  Hypotheses are stated on the
lowercased strings the code compares; lowercasing preserves length. -/
theorem similarity_self_one (a : SimItem)
    (hd : pyLower a.designer ≠ "")
    (hm : pyLower a.model ≠ "") (hmw : pyWordSet (pyLower a.model) ≠ [])
    (hs : a.size ≠ "")
    (hmat : 3 < (pyLower a.material).length)
    (hcol : 2 < (pyLower a.color).length) :
    calculate_similarity_score a a = 1 := by
  rw [calculate_similarity_score]
  rw [if_neg (by simp [hd]), if_pos (Or.inl rfl)]
  rw [modelScore_self _ hm hmw, sizeScore_self _ hs,
    materialScore_self _ hmat, colorScore_self _ hcol]
  norm_num

/-- Witness for C4's amended theorem at a concrete input. -/
theorem similarity_self_one_witness :
    calculate_similarity_score ⟨"gucci", "marmont", "35", "silk", "red"⟩
      ⟨"gucci", "marmont", "35", "silk", "red"⟩ = 1 :=
  similarity_self_one _ (by decide) (by decide) (by decide) (by decide)
    (by decide) (by decide)

/-- Counterexample to C4 as stated: a fully-specified item (all five
attributes non-empty) whose material `"fur"` has length 3 fails the
material substring guard `min length > 3`, so self-similarity is 9/10,
not 1.0. -/
theorem similarity_self_counterexample :
    (("gucci" : String) ≠ "" ∧ ("marmont" : String) ≠ "" ∧ ("35" : String) ≠ ""
        ∧ ("fur" : String) ≠ "" ∧ ("red" : String) ≠ "") ∧
      calculate_similarity_score ⟨"gucci", "marmont", "35", "fur", "red"⟩
        ⟨"gucci", "marmont", "35", "fur", "red"⟩ = (9 : ℚ)/10 ∧
      ((9 : ℚ)/10 ≠ 1) := by
  refine ⟨by decide, by with_unfolding_all decide, by norm_num⟩

/-! ## Claim C5: the condition factor -/

/-- C5: with the comparable set (hence the weighted average observed
condition `avg ≥ 1e-6`) held fixed, the condition factor equals the ratio
`target / avg` clamped to [0.7, 1.3]; it is strictly increasing in the target
condition score while the unclamped ratio lies inside the band, constant at
the band edge once the clamp is reached, and never leaves [0.7, 1.3]. -/
theorem conditionFactor_spec (s s₁ s₂ : ℤ) (avg : ℚ) (havg : 1/1000000 ≤ avg) :
    (conditionFactor s avg = max ((7 : ℚ)/10) (min ((13 : ℚ)/10) ((s : ℚ) / avg))) ∧
    (s₁ < s₂ → (7 : ℚ)/10 ≤ (s₁ : ℚ) / avg → (s₂ : ℚ) / avg ≤ (13 : ℚ)/10 →
      conditionFactor s₁ avg < conditionFactor s₂ avg) ∧
    ((13 : ℚ)/10 ≤ (s : ℚ) / avg → conditionFactor s avg = (13 : ℚ)/10) ∧
    ((s : ℚ) / avg ≤ (7 : ℚ)/10 → conditionFactor s avg = (7 : ℚ)/10) ∧
    ((7 : ℚ)/10 ≤ conditionFactor s avg ∧ conditionFactor s avg ≤ (13 : ℚ)/10) := by
  have hnl : ¬ avg < 1/1000000 := not_lt.mpr havg
  have havg0 : 0 < avg := lt_of_lt_of_le (by norm_num) havg
  have hcf : ∀ u : ℤ, conditionFactor u avg
      = max ((7 : ℚ)/10) (min ((13 : ℚ)/10) ((u : ℚ) / avg)) := by
    intro u; rw [conditionFactor, if_neg hnl]
  refine ⟨hcf s, ?_, ?_, ?_, ?_, ?_⟩
  · intro hlt h₁ h₂
    have hc : (s₁ : ℚ) < (s₂ : ℚ) := by exact_mod_cast hlt
    have hr12 : (s₁ : ℚ) / avg < (s₂ : ℚ) / avg := by gcongr
    rw [hcf s₁, hcf s₂,
      min_eq_right (le_of_lt (lt_of_lt_of_le hr12 h₂)), max_eq_right h₁,
      min_eq_right h₂, max_eq_right (le_of_lt (lt_of_le_of_lt h₁ hr12))]
    exact hr12
  · intro h
    rw [hcf s, min_eq_left h, max_eq_right (by norm_num)]
  · intro h
    rw [hcf s, min_eq_right (le_trans h (by norm_num)), max_eq_left h]
  · rw [hcf s]; exact le_max_left _ _
  · rw [hcf s]; exact max_le (by norm_num) (min_le_left _ _)

/-- Witness for C5's theorem at a concrete input: average observed condition
4, target scores 3 and 4. -/
theorem conditionFactor_spec_witness :
    conditionFactor 4 4 = max ((7 : ℚ)/10) (min ((13 : ℚ)/10) ((4 : ℚ)/4)) ∧
      conditionFactor 3 4 < conditionFactor 4 4 := by
  refine ⟨(conditionFactor_spec 4 3 4 4 (by norm_num)).1, ?_⟩
  exact (conditionFactor_spec 4 3 4 4 (by norm_num)).2.1 (by decide)
    (by norm_num) (by norm_num)

/-! ## Claim C1: insufficient comparables -/

theorem comparables_length_le (t : TargetItem) (ls : List Listing) :
    (comparablesOf t ls).length ≤
      (ls.filter (fun l => decide ((15 : ℚ)/100 ≤ listingSim t l))).length := by
  rw [comparablesOf, List.length_map]
  exact ((List.filter_sublist (l := ls) (p := validListing t)).filter _).length_le

/-- C1: with a well-formed target (designer and model present, the input
contract the code validates first), if fewer than 5 listings reach similarity
at least 0.15 against the target, `estimate_price` returns the structured
insufficient-comparables error carrying the count of listings considered and
the minimum and maximum similarity observed — never a numeric estimate. -/
theorem estimate_price_insufficient (t : TargetItem) (ls : List Listing)
    (trendData : List TrendEntry) (gen : Option ℚ) (stdevFn : List ℚ → ℚ)
    (hd : t.designer ≠ "") (hm : t.model ≠ "")
    (hfew : (ls.filter (fun l => decide ((15 : ℚ)/100 ≤ listingSim t l))).length < 5) :
    estimate_price t ls trendData gen stdevFn =
      .error (.insufficientComparables (simsCollected t ls).length
        (simsCollected t ls).min? (simsCollected t ls).max?) := by
  have h5 : (comparablesOf t ls).length < 5 :=
    lt_of_le_of_lt (comparables_length_le t ls) hfew
  simp only [estimate_price]
  rw [if_neg (not_or.mpr ⟨hd, hm⟩), if_pos h5]

/-- Witness for C1's theorem at a concrete input (empty corpus). -/
theorem estimate_price_insufficient_witness :
    estimate_price ⟨"gucci", "marmont", "excellent", none, none, none⟩ [] [] none
      (fun _ => 0) = .error (.insufficientComparables 0 none none) := by
  have h := estimate_price_insufficient ⟨"gucci", "marmont", "excellent", none, none, none⟩
    [] [] none (fun _ => 0) (by decide) (by decide) (by decide)
  exact h

/-! ## Claim C2: the success formula -/

instance {ε α : Type} [DecidableEq ε] [DecidableEq α] : DecidableEq (Except ε α) := fun x y =>
  match x, y with
  | .ok a, .ok b => if h : a = b then isTrue (by rw [h]) else isFalse (by simpa using h)
  | .error a, .error b => if h : a = b then isTrue (by rw [h]) else isFalse (by simpa using h)
  | .ok _, .error _ => isFalse (by simp)
  | .error _, .ok _ => isFalse (by simp)

theorem comparable_bounds {t : TargetItem} {ls : List Listing} {c : CompData}
    (hc : c ∈ comparablesOf t ls) :
    (3 : ℚ)/5 ≤ c.reliability ∧ (15 : ℚ)/100 ≤ c.similarity := by
  rw [comparablesOf] at hc
  obtain ⟨l, hl, rfl⟩ := List.mem_map.mp hc
  refine ⟨?_, ?_⟩
  · show (3 : ℚ)/5 ≤ sourceReliability l.source_platform
    rw [sourceReliability]
    split_ifs <;> norm_num
  · have hsim := (List.mem_filter.mp hl).2
    exact of_decide_eq_true hsim

theorem comparable_weight_gt {t : TargetItem} {ls : List Listing} {c : CompData}
    (hc : c ∈ comparablesOf t ls) : 1/1000000 < combinedWeight c := by
  obtain ⟨hrel, hsim⟩ := comparable_bounds hc
  have h9 : (9 : ℚ)/100 ≤ combinedWeight c := by
    calc (9 : ℚ)/100 = (3 : ℚ)/5 * ((15 : ℚ)/100) := by norm_num
    _ ≤ c.reliability * c.similarity :=
        mul_le_mul hrel hsim (by norm_num) (le_trans (by norm_num) hrel)
  linarith

theorem kept_eq_comparables (t : TargetItem) (ls : List Listing) :
    (comparablesOf t ls).filter (fun c => decide (1/1000000 < combinedWeight c))
      = comparablesOf t ls :=
  List.filter_eq_self.mpr (fun c hc => decide_eq_true (comparable_weight_gt hc))

theorem totalWeight_gt (t : TargetItem) (ls : List Listing)
    (h5 : 5 ≤ (comparablesOf t ls).length) :
    1/1000000 < ((comparablesOf t ls).map combinedWeight).sum := by
  have hne : comparablesOf t ls ≠ [] := by
    intro h
    rw [h] at h5
    simp at h5
  obtain ⟨c, hc⟩ := List.exists_mem_of_ne_nil _ hne
  have hnn : ∀ y ∈ (comparablesOf t ls).map combinedWeight, 0 ≤ y := by
    intro y hy
    obtain ⟨d, hd, rfl⟩ := List.mem_map.mp hy
    exact le_trans (by norm_num) (le_of_lt (comparable_weight_gt hd))
  have hmem : combinedWeight c ∈ (comparablesOf t ls).map combinedWeight :=
    List.mem_map.mpr ⟨c, hc, rfl⟩
  have := List.single_le_sum hnn _ hmem
  have hcw := comparable_weight_gt hc
  linarith

/-- Characterisation of a successful estimate_price run: with a well-formed
target and at least 5 retained comparables, the result is the record below
(the paths that the data provably cannot take — a comparable with combined
weight at most 1e-6, a total weight below 1e-6 — are discharged). -/
theorem estimate_price_eq_ok (t : TargetItem) (ls : List Listing)
    (trendData : List TrendEntry) (gen : Option ℚ) (stdevFn : List ℚ → ℚ)
    (hd : t.designer ≠ "") (hm : t.model ≠ "")
    (h5 : 5 ≤ (comparablesOf t ls).length) :
    estimate_price t ls trendData gen stdevFn = .ok
      { estimated_price := specBasePrice (comparablesOf t ls)
          * conditionFactor (conditionRatingToScore (pyTrim (pyLower t.condition_rating)))
              (specAvgCondition (comparablesOf t ls))
          * ((85 : ℚ)/100 + getTrendScore trendData gen t.designer t.model
              * ((115 : ℚ)/100 - (85 : ℚ)/100))
          * (if 1/1000000 < specBasePrice (comparablesOf t ls) then
              1 - min (stdevFn (retainedPrices t ls) / specBasePrice (comparablesOf t ls))
                ((3 : ℚ)/4) * ((1 : ℚ)/10)
            else 1)
        base_price := specBasePrice (comparablesOf t ls)
        comparable_count := (comparablesOf t ls).length
        exact_match_count := (exactMatchPrices t ls).length
        min_exact_match_price := (exactMatchPrices t ls).min?
        max_exact_match_price := (exactMatchPrices t ls).max?
        min_similarity_used := ((comparablesOf t ls).map (fun c => c.similarity)).foldl min 1
        max_similarity_used := ((comparablesOf t ls).map (fun c => c.similarity)).foldl max 0
        avg_condition := specAvgCondition (comparablesOf t ls)
        target_condition_score := conditionRatingToScore (pyTrim (pyLower t.condition_rating))
        condition_factor := conditionFactor
          (conditionRatingToScore (pyTrim (pyLower t.condition_rating)))
          (specAvgCondition (comparablesOf t ls))
        trend_score := getTrendScore trendData gen t.designer t.model
        trend_factor := (85 : ℚ)/100 + getTrendScore trendData gen t.designer t.model
          * ((115 : ℚ)/100 - (85 : ℚ)/100)
        price_std_dev := some (stdevFn (retainedPrices t ls))
        coeff_variation := if 1/1000000 < specBasePrice (comparablesOf t ls) then
            some (stdevFn (retainedPrices t ls) / specBasePrice (comparablesOf t ls))
          else none
        variance_factor := if 1/1000000 < specBasePrice (comparablesOf t ls) then
            1 - min (stdevFn (retainedPrices t ls) / specBasePrice (comparablesOf t ls))
              ((3 : ℚ)/4) * ((1 : ℚ)/10)
          else 1 } := by
  have hlen : 2 ≤ ((comparablesOf t ls).map (fun c => c.price)).length := by
    rw [List.length_map]
    omega
  simp only [estimate_price]
  rw [if_neg (not_or.mpr ⟨hd, hm⟩), if_neg (not_lt.mpr h5), kept_eq_comparables,
    if_neg (not_lt.mpr (le_of_lt (totalWeight_gt t ls h5))),
    if_pos hlen, if_pos hlen, if_pos hlen]
  rfl

/-- C2: whenever estimate_price succeeds and the weighted base price clears
the code's 1e-6 positivity guard (prices are positive in the data model), the
estimated price is base_price × condition_factor × trend_factor ×
variance_factor, the base price is the reliability×similarity-weighted
average of the retained comparable prices, the trend factor is
0.85 + 0.3 × trend_score, and — at least 2 retained prices always exist on
success — the variance factor is 1 − min(stdev/base_price, 0.75) × 0.1. -/
theorem estimate_price_success_formula (t : TargetItem) (ls : List Listing)
    (trendData : List TrendEntry) (gen : Option ℚ) (stdevFn : List ℚ → ℚ)
    (r : EstimateResult)
    (hok : estimate_price t ls trendData gen stdevFn = .ok r)
    (hbase : 1/1000000 < r.base_price) :
    r.estimated_price = r.base_price * r.condition_factor * r.trend_factor * r.variance_factor ∧
    r.trend_factor = (85 : ℚ)/100 + (3 : ℚ)/10 * r.trend_score ∧
    r.base_price = specBasePrice (comparablesOf t ls) ∧
    2 ≤ (retainedPrices t ls).length ∧
    r.variance_factor = 1 - min (stdevFn (retainedPrices t ls) / r.base_price)
      ((3 : ℚ)/4) * ((1 : ℚ)/10) := by
  by_cases hdm : t.designer = "" ∨ t.model = ""
  · simp only [estimate_price, if_pos hdm] at hok
    exact Except.noConfusion hok
  · by_cases h5 : (comparablesOf t ls).length < 5
    · simp only [estimate_price, if_neg hdm, if_pos h5] at hok
      exact Except.noConfusion hok
    · push_neg at hdm h5
      obtain ⟨hd, hm⟩ := hdm
      rw [estimate_price_eq_ok t ls trendData gen stdevFn hd hm h5] at hok
      rw [Except.ok.injEq] at hok
      subst hok
      dsimp only at hbase ⊢
      rw [if_pos hbase]
      refine ⟨rfl, by ring, rfl, ?_, rfl⟩
      rw [retainedPrices, List.length_map]
      omega

def c2Target : TargetItem := ⟨"gucci", "marmont", "excellent", none, none, none⟩

def c2Listing : Listing :=
  ⟨some "gucci", some "marmont", none, none, none, none, none, none,
    some 100, some 4, some "Fashionphile"⟩

def c2Result : EstimateResult :=
  ⟨100, 100, 5, 5, some 100, some 100, (37 : ℚ)/40, (37 : ℚ)/40, 4, 4, 1,
    (1 : ℚ)/2, 1, some 0, some 0, 1⟩

/-- Witness for C2's theorem at a concrete input: five identical Fashionphile
listings at price 100 and condition 4. -/
theorem estimate_price_success_formula_witness :
    estimate_price c2Target [c2Listing, c2Listing, c2Listing, c2Listing, c2Listing]
        [] none (fun _ => 0) = .ok c2Result ∧
    1/1000000 < c2Result.base_price ∧
    c2Result.estimated_price = c2Result.base_price * c2Result.condition_factor
      * c2Result.trend_factor * c2Result.variance_factor := by
  have hok : estimate_price c2Target [c2Listing, c2Listing, c2Listing, c2Listing, c2Listing]
      [] none (fun _ => 0) = .ok c2Result := by
    with_unfolding_all decide
  have hbase : 1/1000000 < c2Result.base_price := by with_unfolding_all decide
  exact ⟨hok, hbase,
    (estimate_price_success_formula _ _ _ _ _ _ hok hbase).1⟩

/-! ## Hybrid retrieval (src/Backend/services/rag/query.py)

A retrieval result dictionary.  All items carry an `id` (the merge drops
id-less items; the claims concern id-keyed fusion) and a `score`; the
remaining fields are the attributes the filters and rerankers read. -/

structure RItem where
  id : String
  brand : String
  model : String
  description : String
  materials : List String
  category : String
  price : Option ℚ
  score : ℚ
deriving DecidableEq

/-- Descending-score order used by `sort(key=score, reverse=True)`. -/
def scoreGe (a b : RItem) : Prop := b.score ≤ a.score

instance : DecidableRel scoreGe :=
  fun a b => inferInstanceAs (Decidable (b.score ≤ a.score))

instance : IsTotal RItem scoreGe := ⟨fun a b => le_total b.score a.score⟩

instance : IsTrans RItem scoreGe := ⟨fun _ _ _ h1 h2 => le_trans h2 h1⟩

/-- `results.sort(key=lambda x: x.get("score", 0), reverse=True)`.  (Python's
sort is stable; tie order among equal scores is irrelevant to the claims.) -/
def sortByScoreDesc (l : List RItem) : List RItem := l.insertionSort scoreGe

/-- The `combined` dictionary of `_merge_search_results`, keyed by item id,
in insertion order (Python 3.7+ dict semantics). -/
abbrev SDict := List (String × RItem)

def dictGet (m : SDict) (k : String) : Option RItem :=
  (m.find? (fun p => decide (p.1 = k))).map Prod.snd

/-- `combined[k] = v`: replace in place when the key is present, append
otherwise. -/
def dictSet (m : SDict) (k : String) (v : RItem) : SDict :=
  if (m.find? (fun p => decide (p.1 = k))).isSome then
    m.map (fun p => if p.1 = k then (k, v) else p)
  else m ++ [(k, v)]

/-- Vector-result pass of `_merge_search_results`: insert, or keep the higher
score on a duplicate id. -/
def vecStep (m : SDict) (it : RItem) : SDict :=
  match dictGet m it.id with
  | none => dictSet m it.id it
  | some ex => if ex.score < it.score then dictSet m it.id it else m

/-- BM25-result pass: insert when new, otherwise boost the stored item's
score by ×1.2. -/
def bm25Step (m : SDict) (it : RItem) : SDict :=
  match dictGet m it.id with
  | none => dictSet m it.id it
  | some ex => dictSet m it.id { ex with score := ex.score * (12 : ℚ)/10 }

def mergeCombined (vres bres : List RItem) : SDict :=
  bres.foldl bm25Step (vres.foldl vecStep [])

/-- `_merge_search_results`: fuse by id, sort by score descending, truncate. -/
def merge_search_results (vres bres : List RItem) (top_k : ℕ) : List RItem :=
  (sortByScoreDesc ((mergeCombined vres bres).map Prod.snd)).take top_k

/-- The BM25 conversion in `_hybrid_search`: every lexical hit is assigned the
fixed default score 0.5. -/
def bm25Assign (items : List RItem) : List RItem :=
  items.map (fun it => { it with score := (1 : ℚ)/2 })

/-! Association-list lemmas for the `combined` dictionary. -/

theorem dictGet_dictSet_same (m : SDict) (k : String) (v : RItem) :
    dictGet (dictSet m k v) k = some v := by
  rw [dictSet]
  split_ifs with h
  · rw [dictGet, List.find?_map]
    have hpred : ((fun p : String × RItem => decide (p.1 = k)) ∘
        (fun p : String × RItem => if p.1 = k then (k, v) else p))
        = (fun p : String × RItem => decide (p.1 = k)) := by
      funext p
      by_cases hp : p.1 = k <;> simp [hp]
    rw [hpred]
    obtain ⟨q, hq⟩ := Option.isSome_iff_exists.mp h
    rw [hq]
    have hqk : q.1 = k := by
      have hq1 := @List.find?_some _ (fun p : String × RItem => decide (p.1 = k)) q m hq
      exact of_decide_eq_true hq1
    simp [hqk]
  · rw [dictGet, List.find?_append, Option.not_isSome_iff_eq_none.mp h]
    simp

theorem dictGet_dictSet_ne (m : SDict) (k k' : String) (v : RItem) (h : k' ≠ k) :
    dictGet (dictSet m k v) k' = dictGet m k' := by
  rw [dictSet]
  split_ifs with hs
  · rw [dictGet, List.find?_map]
    have hpred : ((fun p : String × RItem => decide (p.1 = k')) ∘
        (fun p : String × RItem => if p.1 = k then (k, v) else p))
        = (fun p : String × RItem => decide (p.1 = k')) := by
      funext p
      by_cases hp : p.1 = k
      · simp [hp, Ne.symm h]
      · simp [hp]
    rw [hpred, dictGet]
    cases hf : m.find? (fun p => decide (p.1 = k')) with
    | none => rfl
    | some q =>
      have hqk : q.1 = k' := by
        have hf1 := @List.find?_some _ (fun p : String × RItem => decide (p.1 = k')) q m hf
        exact of_decide_eq_true hf1
      have hqne : ¬ q.1 = k := by
        rw [hqk]
        exact h
      simp [hqne]
  · rw [dictGet, dictGet, List.find?_append]
    cases hf : m.find? (fun p => decide (p.1 = k')) with
    | none => simp [hf, Ne.symm h]
    | some q => simp [hf]

theorem dictGet_nil (k : String) : dictGet [] k = none := rfl

theorem foldl_vecStep_eq (vres : List RItem) : ∀ acc : SDict,
    (vres.map RItem.id).Nodup → (∀ v ∈ vres, dictGet acc v.id = none) →
    vres.foldl vecStep acc = acc ++ vres.map (fun v => (v.id, v)) := by
  induction vres with
  | nil => intro acc _ _; simp
  | cons v vs ih =>
    intro acc hnod hnone
    have hv : dictGet acc v.id = none := hnone v (by simp)
    have hfind : acc.find? (fun p => decide (p.1 = v.id)) = none := by
      rw [dictGet] at hv
      exact Option.map_eq_none'.mp hv
    have hstep : vecStep acc v = acc ++ [(v.id, v)] := by
      rw [vecStep, hv, dictSet, if_neg (by simp [hfind])]
    have hnotin : v.id ∉ vs.map RItem.id := (List.nodup_cons.mp hnod).1
    rw [List.foldl_cons, hstep,
      ih (acc ++ [(v.id, v)]) (List.nodup_cons.mp hnod).2 ?_, List.append_assoc]
    · simp
    · intro w hw
      rw [dictGet, List.find?_append]
      have h1 : acc.find? (fun p => decide (p.1 = w.id)) = none := by
        have := hnone w (List.mem_cons_of_mem _ hw)
        rw [dictGet] at this
        exact Option.map_eq_none'.mp this
      have hne : ¬ v.id = w.id := by
        intro hc
        exact hnotin (hc ▸ List.mem_map.mpr ⟨w, hw, rfl⟩)
      rw [h1]
      simp [List.find?, hne]

theorem foldl_bm25Step_get (bres : List RItem) : ∀ (m : SDict) (k : String),
    (bres.map RItem.id).Nodup →
    dictGet (bres.foldl bm25Step m) k =
      match bres.find? (fun b => decide (b.id = k)), dictGet m k with
      | none, r => r
      | some b, none => some b
      | some _, some ex => some { ex with score := ex.score * (12 : ℚ)/10 } := by
  induction bres with
  | nil => intro m k _; rfl
  | cons b bs ih =>
    intro m k hnod
    rw [List.foldl_cons]
    by_cases hk : b.id = k
    · subst hk
      have hnotin : b.id ∉ bs.map RItem.id := (List.nodup_cons.mp hnod).1
      have hbs : bs.find? (fun x => decide (x.id = b.id)) = none := by
        refine List.find?_eq_none.mpr (fun x hx => ?_)
        simp only [decide_eq_true_eq]
        intro hc
        exact hnotin (hc ▸ List.mem_map.mpr ⟨x, hx, rfl⟩)
      rw [ih (bm25Step m b) b.id (List.nodup_cons.mp hnod).2, hbs]
      have hfind : (b :: bs).find? (fun x => decide (x.id = b.id)) = some b := by
        simp [List.find?]
      rw [hfind]
      cases hm : dictGet m b.id with
      | none =>
        have hstep : bm25Step m b = dictSet m b.id b := by
          simp only [bm25Step, hm]
        rw [hstep, dictGet_dictSet_same]
      | some ex =>
        have hstep : bm25Step m b = dictSet m b.id { ex with score := ex.score * (12 : ℚ)/10 } := by
          simp only [bm25Step, hm]
        rw [hstep, dictGet_dictSet_same]
    · rw [ih (bm25Step m b) k (List.nodup_cons.mp hnod).2]
      have hfind : (b :: bs).find? (fun x => decide (x.id = k))
          = bs.find? (fun x => decide (x.id = k)) := by
        simp [List.find?, hk]
      have hget : dictGet (bm25Step m b) k = dictGet m k := by
        cases hm : dictGet m b.id with
        | none =>
          have hstep : bm25Step m b = dictSet m b.id b := by
            simp only [bm25Step, hm]
          rw [hstep]
          exact dictGet_dictSet_ne m b.id k _ (fun hc => hk hc.symm)
        | some ex =>
          have hstep : bm25Step m b = dictSet m b.id { ex with score := ex.score * (12 : ℚ)/10 } := by
            simp only [bm25Step, hm]
          rw [hstep]
          exact dictGet_dictSet_ne m b.id k _ (fun hc => hk hc.symm)
      rw [hfind, hget]

theorem find?_by_id (l : List RItem) (hn : (l.map RItem.id).Nodup) {x : RItem}
    (hx : x ∈ l) : l.find? (fun b => decide (b.id = x.id)) = some x := by
  induction l with
  | nil => exact absurd hx (List.not_mem_nil x)
  | cons u us ih =>
    rcases List.mem_cons.mp hx with rfl | hx'
    · simp [List.find?]
    · have hnotin : u.id ∉ us.map RItem.id := (List.nodup_cons.mp hn).1
      have hne : ¬ u.id = x.id := by
        intro hc
        exact hnotin (hc ▸ List.mem_map.mpr ⟨x, hx', rfl⟩)
      have hstep : (u :: us).find? (fun b => decide (b.id = x.id))
          = us.find? (fun b => decide (b.id = x.id)) := by
        simp [List.find?, hne]
      rw [hstep]
      exact ih (List.nodup_cons.mp hn).2 hx'

theorem dictGet_map_of_mem (vres : List RItem) (hv : (vres.map RItem.id).Nodup)
    {v : RItem} (hvm : v ∈ vres) :
    dictGet (vres.map (fun v => (v.id, v))) v.id = some v := by
  rw [dictGet, List.find?_map]
  have hpred : ((fun p : String × RItem => decide (p.1 = v.id)) ∘ (fun v => (v.id, v)))
      = (fun b : RItem => decide (b.id = v.id)) := rfl
  rw [hpred, find?_by_id vres hv hvm]
  rfl

theorem dictGet_map_of_not_mem (vres : List RItem) {k : String}
    (hk : k ∉ vres.map RItem.id) :
    dictGet (vres.map (fun v => (v.id, v))) k = none := by
  rw [dictGet, List.find?_map]
  have hfind : vres.find? ((fun p : String × RItem => decide (p.1 = k))
      ∘ (fun v => (v.id, v))) = none := by
    refine List.find?_eq_none.mpr (fun x hx => ?_)
    simp only [Function.comp_apply, decide_eq_true_eq]
    intro hc
    exact hk (hc ▸ List.mem_map.mpr ⟨x, hx, rfl⟩)
  rw [hfind]
  rfl

theorem bm25Assign_ids (raw : List RItem) :
    (bm25Assign raw).map RItem.id = raw.map RItem.id := by
  rw [bm25Assign, List.map_map]
  rfl

/-- C6: hybrid-search fusion keyed by item id.  With duplicate-free ids in
each result set: an item found by both methods ends with 1.2 × its vector
score; a vector-only item keeps its vector score; a lexical-only item is
stored with the fixed neutral score 0.5 the BM25 conversion assigned; and
there is a corpus on which a lexical-only item appears in the fused output
with a non-zero score. -/
theorem hybrid_merge_fusion (vres raw : List RItem)
    (hv : (vres.map RItem.id).Nodup) (hb : (raw.map RItem.id).Nodup) :
    (∀ v ∈ vres, ∀ b ∈ bm25Assign raw, b.id = v.id →
      dictGet (mergeCombined vres (bm25Assign raw)) v.id
        = some { v with score := v.score * (12 : ℚ)/10 }) ∧
    (∀ v ∈ vres, (∀ b ∈ bm25Assign raw, b.id ≠ v.id) →
      dictGet (mergeCombined vres (bm25Assign raw)) v.id = some v) ∧
    (∀ b ∈ bm25Assign raw, (∀ v ∈ vres, v.id ≠ b.id) →
      dictGet (mergeCombined vres (bm25Assign raw)) b.id = some b
        ∧ b.score = (1 : ℚ)/2) ∧
    (∃ vs bs k, ∃ x ∈ merge_search_results vs (bm25Assign bs) k,
      (∀ v ∈ vs, v.id ≠ x.id) ∧ x.score ≠ 0) := by
  have hb' : ((bm25Assign raw).map RItem.id).Nodup := by
    rw [bm25Assign_ids]
    exact hb
  have hm0 : vres.foldl vecStep [] = vres.map (fun v => (v.id, v)) :=
    foldl_vecStep_eq vres [] hv (fun v _ => rfl)
  refine ⟨?_, ?_, ?_, ?_⟩
  · intro v hvm b hbm hid
    rw [mergeCombined, hm0, foldl_bm25Step_get _ _ _ hb']
    have hfb : (bm25Assign raw).find? (fun x => decide (x.id = v.id)) = some b := by
      have := find?_by_id (bm25Assign raw) hb' hbm
      rwa [hid] at this
    rw [hfb, dictGet_map_of_mem vres hv hvm]
  · intro v hvm hnob
    rw [mergeCombined, hm0, foldl_bm25Step_get _ _ _ hb']
    have hfb : (bm25Assign raw).find? (fun x => decide (x.id = v.id)) = none := by
      refine List.find?_eq_none.mpr (fun x hx => ?_)
      simp only [decide_eq_true_eq]
      exact hnob x hx
    rw [hfb, dictGet_map_of_mem vres hv hvm]
  · intro b hbm hnov
    refine ⟨?_, ?_⟩
    · rw [mergeCombined, hm0, foldl_bm25Step_get _ _ _ hb',
        find?_by_id (bm25Assign raw) hb' hbm,
        dictGet_map_of_not_mem vres ?_]
      intro hc
      obtain ⟨v, hvm, hvid⟩ := List.mem_map.mp hc
      exact hnov v hvm hvid
    · obtain ⟨r, _, rfl⟩ := List.mem_map.mp hbm
      rfl
  · refine ⟨[⟨"a", "", "", "", [], "", none, (9 : ℚ)/10⟩],
      [⟨"b", "", "", "", [], "", none, 0⟩], 5,
      ⟨"b", "", "", "", [], "", none, (1 : ℚ)/2⟩, ?_, ?_, ?_⟩
    · with_unfolding_all decide
    · intro v hv'
      rcases List.mem_singleton.mp hv' with rfl
      decide
    · norm_num

/-- Witness for C6's theorem at a concrete input: one vector item and one
lexical item sharing the id "a". -/
theorem hybrid_merge_fusion_witness :
    dictGet (mergeCombined [⟨"a", "", "", "", [], "", none, (9 : ℚ)/10⟩]
        (bm25Assign [⟨"a", "", "", "", [], "", none, 0⟩])) "a"
      = some ⟨"a", "", "", "", [], "", none, (9 : ℚ)/10 * 12/10⟩ := by
  have h := (hybrid_merge_fusion [⟨"a", "", "", "", [], "", none, (9 : ℚ)/10⟩]
      [⟨"a", "", "", "", [], "", none, 0⟩] (by decide) (by decide)).1
  have h2 := h ⟨"a", "", "", "", [], "", none, (9 : ℚ)/10⟩ (by with_unfolding_all decide)
      ⟨"a", "", "", "", [], "", none, (1 : ℚ)/2⟩ (by with_unfolding_all decide) rfl
  exact h2

/-! ## Retriever search with hybrid fallback
(src/Backend/services/rag/query.py, LuxuryItemsRetriever.search)

The vector store, the hybrid pipeline and the reranker are collaborating
objects; their outcomes enter the model as `Except` values (`error` = the
Python call raised).  The brand/category/price filters of `_apply_filters`
are modelled concretely. -/

structure SearchFilters where
  brand : Option String
  category : Option String
  price_range : Option (ℚ × ℚ)

/-- `_apply_filters`: brand equality (lowercased), category equality
(lowercased), inclusive price range; an empty-string filter is falsy in
Python and applies no filtering. -/
def applyFilters (f : SearchFilters) (results : List RItem) : List RItem :=
  let r1 := match f.brand with
    | some bf => if bf = "" then results
        else results.filter (fun it => decide (pyLower it.brand = pyLower bf))
    | none => results
  let r2 := match f.category with
    | some cf => if cf = "" then r1
        else r1.filter (fun it => decide (pyLower it.category = pyLower cf))
    | none => r1
  match f.price_range with
  | some (mn, mx) => r2.filter (fun it => match it.price with
      | some p => decide (mn ≤ p ∧ p ≤ mx)
      | none => false)
  | none => r2

/-- The `try: hybrid except: vector` / plain-vector choice at the top of
`search`. -/
def searchPrimary (useHybrid : Bool) (hybrid vector : Except String (List RItem)) :
    Except String (List RItem) :=
  if useHybrid then
    match hybrid with
    | .ok r => .ok r
    | .error _ => vector
  else vector

/-- The filter → rerank (best-effort) → truncate pipeline applied to the
retrieved results. -/
def searchPost (f : SearchFilters) (useReranker : Bool)
    (rerank : List RItem → Except String (List RItem)) (top_k : ℕ)
    (results : List RItem) : List RItem :=
  if results.isEmpty then []
  else
    let filtered := applyFilters f results
    let finalResults :=
      if useReranker && !filtered.isEmpty then
        match rerank filtered with
        | .ok rr => rr
        | .error _ => filtered
      else filtered
    finalResults.take top_k

/-- `LuxuryItemsRetriever.search`: an exception escapes only if the chosen
retrieval call itself raises (the hybrid path's exception is caught, the
reranker's exception is caught). -/
def search (useHybrid : Bool) (hybrid vector : Except String (List RItem))
    (f : SearchFilters) (useReranker : Bool)
    (rerank : List RItem → Except String (List RItem)) (top_k : ℕ) :
    Except String (List RItem) :=
  match searchPrimary useHybrid hybrid vector with
  | .error e => .error e
  | .ok results => .ok (searchPost f useReranker rerank top_k results)

/-- C7: if the hybrid path raises, `search` behaves exactly like the
vector-only search (for any hybrid outcome), and when the vector fallback
returns a result list the caller receives an ordinary (`ok`) result — the
hybrid-path exception is never propagated. -/
theorem search_hybrid_fallback (e : String)
    (hybridAlt vector : Except String (List RItem)) (f : SearchFilters)
    (useReranker : Bool) (rerank : List RItem → Except String (List RItem))
    (top_k : ℕ) :
    search true (.error e) vector f useReranker rerank top_k
      = search false hybridAlt vector f useReranker rerank top_k ∧
    (∀ v, vector = .ok v →
      search true (.error e) vector f useReranker rerank top_k
        = .ok (searchPost f useReranker rerank top_k v)) := by
  refine ⟨rfl, ?_⟩
  intro v hv
  subst hv
  rfl

/-- Witness for C7's theorem at a concrete input. -/
theorem search_hybrid_fallback_witness :
    search true (.error "index unavailable")
        (.ok [⟨"a", "", "", "", [], "", none, 1⟩]) ⟨none, none, none⟩ false
        (fun l => .ok l) 5
      = .ok (searchPost ⟨none, none, none⟩ false (fun l => .ok l) 5
          [⟨"a", "", "", "", [], "", none, 1⟩]) :=
  (search_hybrid_fallback "index unavailable" (.ok [])
    (.ok [⟨"a", "", "", "", [], "", none, 1⟩]) ⟨none, none, none⟩ false
    (fun l => .ok l) 5).2 _ rfl

/-! ## Rerankers (src/Backend/services/rag/reranker.py)

Each strategy copies the results and adds an additive boost to the copy's
score.  The embedding provider is external: `simFn text` stands for
`cosine(query_embedding, embed(text)) `, with `none` = per-item embedding
failure, and `embedOk` = whether the query embedding was obtained at all. -/

/-- KeywordMatchReranker's boost for one item: brand substring (+ half again
on exact word match), model substring (+ matched-token fraction), first
matching material.  `bB`/`mB`/`matB` are the constructor parameters
(defaults 0.2 / 0.15 / 0.1). -/
def keywordBoost (bB mB matB : ℚ) (q : String) (it : RItem) : ℚ :=
  let ql := pyLower q
  let qwords := pySplit ql
  let brandB : ℚ :=
    if it.brand ≠ "" ∧ strContains (pyLower it.brand) ql then
      bB + (if pyLower it.brand ∈ qwords then bB / 2 else 0)
    else 0
  let modelB : ℚ :=
    if it.model ≠ "" ∧ strContains (pyLower it.model) ql then
      let mwords := pySplit (pyLower it.model)
      let matched := mwords.filter (fun w => w ∈ qwords)
      mB + (if matched ≠ [] then mB * ((matched.length : ℚ) / (mwords.length : ℚ)) else 0)
    else 0
  let matB2 : ℚ :=
    if it.materials.any (fun m => strContains (pyLower m) ql) then matB else 0
  brandB + modelB + matB2

/-- The "Brand: … Model: … Description: …" text SemanticReranker embeds. -/
def itemText (it : RItem) : String :=
  (if it.brand ≠ "" then "Brand: " ++ it.brand ++ " " else "")
    ++ (if it.model ≠ "" then "Model: " ++ it.model ++ " " else "")
    ++ (if it.description ≠ "" then "Description: " ++ it.description ++ " " else "")

/-- SemanticReranker's boost: cosine similarity × 0.5; an item with no text
or a failed item embedding is skipped (boost 0). -/
def semanticBoost (simFn : String → Option ℚ) (it : RItem) : ℚ :=
  let t := itemText it
  if t = "" then 0
  else
    match simFn t with
    | some sim => sim * ((1 : ℚ)/2)
    | none => 0

/-- Per-item copies with the boost added to the copy's score. -/
def applyBoost (boost : RItem → ℚ) (items : List RItem) : List RItem :=
  items.map (fun it => { it with score := it.score + boost it })

/-- `if top_k is not None: results = results[:top_k]`. -/
def truncate (topk : Option ℕ) (l : List RItem) : List RItem :=
  match topk with
  | some k => l.take k
  | none => l

/-- KeywordMatchReranker.rerank. -/
def keywordRerank (bB mB matB : ℚ) (q : String) (items : List RItem)
    (topk : Option ℕ) : List RItem :=
  if items = [] then []
  else truncate topk (sortByScoreDesc (applyBoost (keywordBoost bB mB matB q) items))

/-- SemanticReranker.rerank: when the query embedding fails the copies are
returned unchanged (no boost, no sort, no truncation). -/
def semanticRerank (embedOk : Bool) (simFn : String → Option ℚ)
    (items : List RItem) (topk : Option ℕ) : List RItem :=
  if items = [] then []
  else if embedOk then
    truncate topk (sortByScoreDesc (applyBoost (semanticBoost simFn) items))
  else items

/-- The `result_map` lookup of EnsembleReranker (first sub-result whose id
matches). -/
def findById (l : List RItem) (i : String) : Option RItem :=
  l.find? (fun r => decide (r.id = i))

/-- Score-combination pass of EnsembleReranker: add `weight × sub-result
score` to each working item found in the sub-result map. -/
def ensembleCombine (subResults : List RItem) (w : ℚ) (items : List RItem) :
    List RItem :=
  items.map (fun it =>
    match findById subResults it.id with
    | some r => { it with score := it.score + r.score * w }
    | none => it)

/-- EnsembleReranker.rerank with the default strategies
[KeywordMatchReranker, SemanticReranker] and normalized weights [1/2, 1/2]:
save original scores, reset to 0, apply each strategy to the working items
and fold its returned scores in, restore 20% of the original score, sort. -/
def ensembleRerank (q : String) (embedOk : Bool) (simFn : String → Option ℚ)
    (items : List RItem) (topk : Option ℕ) : List RItem :=
  if items = [] then []
  else
    let ens0 := items.map (fun it => { it with score := 0 })
    let ens1 := ensembleCombine
      (keywordRerank ((2 : ℚ)/10) ((15 : ℚ)/100) ((1 : ℚ)/10) q ens0 none)
      ((1 : ℚ)/2) ens0
    let ens2 := ensembleCombine (semanticRerank embedOk simFn ens1 none)
      ((1 : ℚ)/2) ens1
    let ens3 := (ens2.zip items).map
      (fun p => { p.1 with score := p.1.score + p.2.score * ((2 : ℚ)/10) })
    truncate topk (sortByScoreDesc ens3)

/-- The semantic strategy's effective additive boost: 0 whenever the query
embedding could not be obtained. -/
def semanticBoostApplied (embedOk : Bool) (simFn : String → Option ℚ)
    (it : RItem) : ℚ :=
  if embedOk then semanticBoost simFn it else 0

/-! Helper lemmas for the ensemble formula. -/

theorem truncate_none (l : List RItem) : truncate none l = l := rfl

theorem applyBoost_ids (b : RItem → ℚ) (l : List RItem) :
    (applyBoost b l).map RItem.id = l.map RItem.id := by
  rw [applyBoost, List.map_map]
  rfl

theorem sortByScoreDesc_perm (l : List RItem) : List.Perm (sortByScoreDesc l) l :=
  List.perm_insertionSort scoreGe l

theorem findById_sorted_boost (b : RItem → ℚ) (L : List RItem)
    (hn : (L.map RItem.id).Nodup) {x : RItem} (hx : x ∈ L) :
    findById (sortByScoreDesc (applyBoost b L)) x.id
      = some { x with score := x.score + b x } := by
  have hperm : List.Perm (sortByScoreDesc (applyBoost b L)) (applyBoost b L) :=
    sortByScoreDesc_perm _
  have hn' : ((sortByScoreDesc (applyBoost b L)).map RItem.id).Nodup := by
    refine (List.Perm.nodup_iff (List.Perm.map RItem.id hperm)).mpr ?_
    rw [applyBoost_ids]
    exact hn
  have hmem : ({ x with score := x.score + b x } : RItem)
      ∈ sortByScoreDesc (applyBoost b L) := by
    refine hperm.mem_iff.mpr ?_
    exact List.mem_map.mpr ⟨x, hx, rfl⟩
  exact find?_by_id _ hn' hmem

theorem ensembleCombine_applyBoost (b : RItem → ℚ) (w : ℚ) (L : List RItem)
    (hn : (L.map RItem.id).Nodup) :
    ensembleCombine (sortByScoreDesc (applyBoost b L)) w L
      = L.map (fun it => { it with score := it.score + (it.score + b it) * w }) := by
  rw [ensembleCombine]
  refine List.map_congr_left (fun it hit => ?_)
  rw [findById_sorted_boost b L hn hit]

theorem ensembleCombine_self (w : ℚ) (L : List RItem)
    (hn : (L.map RItem.id).Nodup) :
    ensembleCombine L w L
      = L.map (fun it => { it with score := it.score + it.score * w }) := by
  rw [ensembleCombine]
  refine List.map_congr_left (fun it hit => ?_)
  rw [findById, find?_by_id L hn hit]

theorem map_zip_self (f : RItem → RItem) (L : List RItem) :
    (L.map f).zip L = L.map (fun x => (f x, x)) := by
  induction L with
  | nil => rfl
  | cons x xs ih => simp [ih]

/-- C8 (amended): for the default ensemble (keyword + semantic strategies,
normalized weights [1/2, 1/2]), every result's final score is
`3/4 × keyword boost + 1/2 × semantic boost + 1/5 × pre-rerank score`, and
the output is ordered by final score descending.  (The keyword coefficient is
3/4, not the weight 1/2: each strategy returns its boost added to the
*accumulated* ensemble score, and that sum is weighted again, so earlier
strategies compound; the original-score fraction is exactly 20%.) -/
theorem ensemble_rerank_formula (q : String) (embedOk : Bool)
    (simFn : String → Option ℚ) (items : List RItem) (topk : Option ℕ)
    (hn : (items.map RItem.id).Nodup) :
    ensembleRerank q embedOk simFn items topk
      = truncate topk (sortByScoreDesc (items.map (fun it =>
          { it with score :=
              ((3 : ℚ)/4) * keywordBoost ((2 : ℚ)/10) ((15 : ℚ)/100) ((1 : ℚ)/10) q it
                + ((1 : ℚ)/2) * semanticBoostApplied embedOk simFn it
                + ((1 : ℚ)/5) * it.score })))
      ∧ List.Sorted scoreGe (ensembleRerank q embedOk simFn items topk) := by
  by_cases hemp : items = []
  · subst hemp
    refine ⟨?_, ?_⟩
    · cases topk with
      | none => simp [ensembleRerank, truncate, sortByScoreDesc, List.insertionSort]
      | some k => simp [ensembleRerank, truncate, sortByScoreDesc, List.insertionSort]
    · simp [ensembleRerank]
  · have hmain : ensembleRerank q embedOk simFn items topk
        = truncate topk (sortByScoreDesc (items.map (fun it =>
            { it with score :=
                ((3 : ℚ)/4) * keywordBoost ((2 : ℚ)/10) ((15 : ℚ)/100) ((1 : ℚ)/10) q it
                  + ((1 : ℚ)/2) * semanticBoostApplied embedOk simFn it
                  + ((1 : ℚ)/5) * it.score }))) := by
      simp only [ensembleRerank]
      rw [if_neg hemp]
      have hens0 : items.map (fun it => ({ it with score := 0 } : RItem))
          = items.map (fun it => ({ it with score := 0 } : RItem)) := rfl
      have h0ne : items.map (fun it => ({ it with score := 0 } : RItem)) ≠ [] := by
        simpa using hemp
      have h0ids : ((items.map (fun it => ({ it with score := 0 } : RItem))).map
          RItem.id).Nodup := by
        rw [List.map_map]
        exact hn
      -- keyword stage
      rw [keywordRerank, if_neg h0ne, truncate_none]
      rw [ensembleCombine_applyBoost _ _ _ h0ids, List.map_map]
      -- the working list after the keyword stage, as a map over `items`
      have h1ids : ((items.map ((fun it => ({ it with score :=
          it.score + (it.score + keywordBoost ((2 : ℚ)/10) ((15 : ℚ)/100) ((1 : ℚ)/10) q it)
            * ((1 : ℚ)/2) } : RItem)) ∘ (fun it => ({ it with score := 0 } : RItem)))).map
          RItem.id).Nodup := by
        rw [List.map_map]
        exact hn
      have h1ne : items.map ((fun it => ({ it with score :=
          it.score + (it.score + keywordBoost ((2 : ℚ)/10) ((15 : ℚ)/100) ((1 : ℚ)/10) q it)
            * ((1 : ℚ)/2) } : RItem)) ∘ (fun it => ({ it with score := 0 } : RItem))) ≠ [] := by
        simpa using hemp
      -- semantic stage, by cases on the query embedding
      cases embedOk with
      | false =>
        rw [semanticRerank, if_neg h1ne]
        simp only [Bool.false_eq_true, if_false]
        rw [ensembleCombine_self _ _ h1ids, List.map_map, map_zip_self, List.map_map]
        refine congrArg (fun l => truncate topk (sortByScoreDesc l))
          (List.map_congr_left (fun it _ => ?_))
        have hsc : (0 + (0 + keywordBoost ((2 : ℚ)/10) ((15 : ℚ)/100) ((1 : ℚ)/10) q it)
              * ((1 : ℚ)/2))
            + (0 + (0 + keywordBoost ((2 : ℚ)/10) ((15 : ℚ)/100) ((1 : ℚ)/10) q it)
              * ((1 : ℚ)/2)) * ((1 : ℚ)/2)
            + it.score * ((2 : ℚ)/10)
            = ((3 : ℚ)/4) * keywordBoost ((2 : ℚ)/10) ((15 : ℚ)/100) ((1 : ℚ)/10) q it
              + ((1 : ℚ)/2) * semanticBoostApplied false simFn it
              + ((1 : ℚ)/5) * it.score := by
          rw [semanticBoostApplied]
          simp only [Bool.false_eq_true, if_false]
          ring
        exact congrArg (fun s => ({ it with score := s } : RItem)) hsc
      | true =>
        rw [semanticRerank, if_neg h1ne]
        simp only [if_true]
        rw [truncate_none, ensembleCombine_applyBoost _ _ _ h1ids, List.map_map, map_zip_self, List.map_map]
        refine congrArg (fun l => truncate topk (sortByScoreDesc l))
          (List.map_congr_left (fun it _ => ?_))
        have hsc : ((0 + (0 + keywordBoost ((2 : ℚ)/10) ((15 : ℚ)/100) ((1 : ℚ)/10) q it)
              * ((1 : ℚ)/2))
            + ((0 + (0 + keywordBoost ((2 : ℚ)/10) ((15 : ℚ)/100) ((1 : ℚ)/10) q it)
              * ((1 : ℚ)/2)) + semanticBoost simFn it) * ((1 : ℚ)/2))
            + it.score * ((2 : ℚ)/10)
            = ((3 : ℚ)/4) * keywordBoost ((2 : ℚ)/10) ((15 : ℚ)/100) ((1 : ℚ)/10) q it
              + ((1 : ℚ)/2) * semanticBoostApplied true simFn it
              + ((1 : ℚ)/5) * it.score := by
          rw [semanticBoostApplied]
          simp only [if_true]
          ring
        exact congrArg (fun s => ({ it with score := s } : RItem)) hsc
    refine ⟨hmain, ?_⟩
    rw [hmain]
    cases topk with
    | none => exact List.sorted_insertionSort scoreGe _
    | some k =>
      exact List.Pairwise.sublist (List.take_sublist k _)
        (List.sorted_insertionSort scoreGe _)

/-- Counterexample to C8 as stated: on a single result with brand "gucci",
query "gucci", pre-rerank score 1, and a failed query embedding (semantic
boost 0), the ensemble's final score is 17/40 = 0.425, while the claimed
weighted-sum-of-boosts formula gives 1/2 × 0.3 + 1/2 × 0 + 0.2 × 1 = 0.35. -/
theorem ensemble_rerank_counterexample :
    (ensembleRerank "gucci" false (fun _ => none)
        [⟨"i1", "gucci", "", "", [], "", none, 1⟩] none).map (fun r => r.score)
      = [(17 : ℚ)/40] ∧
    ((17 : ℚ)/40 ≠ ((1 : ℚ)/2) * keywordBoost ((2 : ℚ)/10) ((15 : ℚ)/100) ((1 : ℚ)/10)
        "gucci" (⟨"i1", "gucci", "", "", [], "", none, 1⟩ : RItem)
      + ((1 : ℚ)/2) * semanticBoostApplied false (fun _ => none)
        (⟨"i1", "gucci", "", "", [], "", none, 1⟩ : RItem)
      + ((2 : ℚ)/10) * 1) := by
  constructor
  · with_unfolding_all decide
  · with_unfolding_all decide

/-- Witness for C8's amended theorem at a concrete input. -/
theorem ensemble_rerank_formula_witness :
    ensembleRerank "gucci" true (fun _ => some ((1 : ℚ)/2))
        [⟨"i1", "gucci", "", "", [], "", none, 1⟩] none
      = truncate none (sortByScoreDesc
          (([(⟨"i1", "gucci", "", "", [], "", none, 1⟩ : RItem)]).map (fun it =>
            { it with score :=
                ((3 : ℚ)/4) * keywordBoost ((2 : ℚ)/10) ((15 : ℚ)/100) ((1 : ℚ)/10) "gucci" it
                  + ((1 : ℚ)/2) * semanticBoostApplied true (fun _ => some ((1 : ℚ)/2)) it
                  + ((1 : ℚ)/5) * it.score }))) :=
  (ensemble_rerank_formula "gucci" true (fun _ => some ((1 : ℚ)/2))
    [⟨"i1", "gucci", "", "", [], "", none, 1⟩] none (by decide)).1

/-! ## Reference-semantics model of the rerankers (for the frame claim)

Python result dictionaries are heap objects: `rerank` receives references,
copies each dictionary (`item.copy()`), and assigns scores only on the
copies.  The heap maps addresses to items; `next` is the allocation bound.
Only the top-level `score` value is modelled — the shallow copy shares the
nested `metadata` dictionary, which the code does mutate, but the claim
concerns only the `score` entries of the caller's dictionaries. -/

structure Heap where
  items : ℕ → RItem
  next : ℕ

/-- `item["score"] = s` on the dictionary at address `a`. -/
def writeScore (h : Heap) (a : ℕ) (s : ℚ) : Heap :=
  { h with items := fun b => if b = a then { h.items a with score := s } else h.items b }

/-- `[item.copy() for item in results]`: fresh addresses holding copies of
the pointed items. -/
def allocCopies : Heap → List ℕ → Heap × List ℕ
  | h, [] => (h, [])
  | h, a :: as =>
    let h1 : Heap :=
      { items := fun b => if b = h.next then h.items a else h.items b
        next := h.next + 1 }
    let r := allocCopies h1 as
    (r.1, h.next :: r.2)

/-- Sort addresses by the score of the pointed item, descending. -/
def sortAddrs (h : Heap) (l : List ℕ) : List ℕ :=
  l.insertionSort (fun a b => (h.items b).score ≤ (h.items a).score)

def truncAddrs (topk : Option ℕ) (l : List ℕ) : List ℕ :=
  match topk with
  | some k => l.take k
  | none => l

/-- KeywordMatchReranker.rerank over the heap: copy, boost the copies'
scores in place, sort, truncate. -/
def keywordRerankH (bB mB matB : ℚ) (q : String) (h : Heap) (addrs : List ℕ)
    (topk : Option ℕ) : Heap × List ℕ :=
  if addrs = [] then (h, [])
  else
    let r := allocCopies h addrs
    let h2 := r.2.foldl (fun hh a =>
      writeScore hh a ((hh.items a).score + keywordBoost bB mB matB q (hh.items a))) r.1
    (h2, truncAddrs topk (sortAddrs h2 r.2))

/-- SemanticReranker.rerank over the heap; on a failed query embedding the
copies are returned untouched. -/
def semanticRerankH (embedOk : Bool) (simFn : String → Option ℚ) (h : Heap)
    (addrs : List ℕ) (topk : Option ℕ) : Heap × List ℕ :=
  if addrs = [] then (h, [])
  else
    let r := allocCopies h addrs
    if embedOk then
      let h2 := r.2.foldl (fun hh a =>
        writeScore hh a ((hh.items a).score + semanticBoost simFn (hh.items a))) r.1
      (h2, truncAddrs topk (sortAddrs h2 r.2))
    else (r.1, r.2)

/-- Score-combination pass of the ensemble over the heap: look the working
item's id up in the sub-result addresses and add the weighted sub-score. -/
def combineH (h : Heap) (subAddrs : List ℕ) (w : ℚ) (addrs : List ℕ) : Heap :=
  addrs.foldl (fun hh a =>
    match subAddrs.find? (fun b => decide ((hh.items b).id = (hh.items a).id)) with
    | some b => writeScore hh a ((hh.items a).score + (hh.items b).score * w)
    | none => hh) h

/-- EnsembleReranker.rerank over the heap (default strategies and weights). -/
def ensembleRerankH (q : String) (embedOk : Bool) (simFn : String → Option ℚ)
    (h : Heap) (addrs : List ℕ) (topk : Option ℕ) : Heap × List ℕ :=
  if addrs = [] then (h, [])
  else
    let r := allocCopies h addrs
    let origs := r.2.map (fun a => (r.1.items a).score)
    let h2 := r.2.foldl (fun hh a => writeScore hh a 0) r.1
    let rk := keywordRerankH ((2 : ℚ)/10) ((15 : ℚ)/100) ((1 : ℚ)/10) q h2 r.2 none
    let h4 := combineH rk.1 rk.2 ((1 : ℚ)/2) r.2
    let rs := semanticRerankH embedOk simFn h4 r.2 none
    let h6 := combineH rs.1 rs.2 ((1 : ℚ)/2) r.2
    let h7 := (r.2.zip origs).foldl
      (fun hh p => writeScore hh p.1 ((hh.items p.1).score + p.2 * ((2 : ℚ)/10))) h6
    (h7, truncAddrs topk (sortAddrs h7 r.2))

/-! Frame lemmas: every write targets a freshly allocated address, so items
below the input allocation bound are untouched. -/

theorem writeScore_next (h : Heap) (a : ℕ) (s : ℚ) :
    (writeScore h a s).next = h.next := rfl

theorem writeScore_items_ne (h : Heap) (a b : ℕ) (s : ℚ) (hne : b ≠ a) :
    (writeScore h a s).items b = h.items b := by
  simp [writeScore, hne]

theorem allocCopies_spec (l : List ℕ) : ∀ h : Heap,
    h.next ≤ (allocCopies h l).1.next
      ∧ (∀ a, a < h.next → ((allocCopies h l).1).items a = h.items a)
      ∧ (∀ c ∈ (allocCopies h l).2, h.next ≤ c ∧ c < (allocCopies h l).1.next) := by
  induction l with
  | nil => intro h; exact ⟨le_refl _, fun a _ => rfl, by simp [allocCopies]⟩
  | cons a as ih =>
    intro h
    simp only [allocCopies]
    obtain ⟨ih1, ih2, ih3⟩ := ih
      { items := fun b => if b = h.next then h.items a else h.items b
        next := h.next + 1 }
    refine ⟨le_trans (Nat.le_succ _) ih1, ?_, ?_⟩
    · intro b hb
      rw [ih2 b (lt_trans hb (Nat.lt_succ_self _))]
      simp [Nat.ne_of_lt hb]
    · intro c hc
      rcases List.mem_cons.mp hc with rfl | hc'
      · exact ⟨le_refl _, lt_of_lt_of_le (Nat.lt_succ_self _) ih1⟩
      · obtain ⟨h1, h2⟩ := ih3 c hc'
        exact ⟨le_trans (Nat.le_succ _) h1, h2⟩

theorem foldl_write_frame {α : Type} (f : Heap → α → Heap) (addr : α → ℕ)
    (hne : ∀ hh a b, b ≠ addr a → (f hh a).items b = hh.items b)
    (hnx : ∀ hh a, (f hh a).next = hh.next)
    (L : List α) : ∀ (h : Heap) (n : ℕ), (∀ a ∈ L, n ≤ addr a) →
    (∀ b, b < n → (L.foldl f h).items b = h.items b) ∧ (L.foldl f h).next = h.next := by
  induction L with
  | nil => intro h n _; exact ⟨fun b _ => rfl, rfl⟩
  | cons a as ih =>
    intro h n hL
    rw [List.foldl_cons]
    obtain ⟨ih1, ih2⟩ := ih (f h a) n (fun x hx => hL x (List.mem_cons_of_mem _ hx))
    refine ⟨?_, by rw [ih2, hnx]⟩
    intro b hb
    rw [ih1 b hb, hne]
    exact Nat.ne_of_lt (lt_of_lt_of_le hb (hL a (List.mem_cons_self _ _)))

theorem combineH_frame (h : Heap) (subAddrs : List ℕ) (w : ℚ) (addrs : List ℕ)
    (n : ℕ) (hge : ∀ a ∈ addrs, n ≤ a) :
    (∀ b, b < n → (combineH h subAddrs w addrs).items b = h.items b)
      ∧ (combineH h subAddrs w addrs).next = h.next := by
  refine foldl_write_frame _ (fun a => a) ?_ ?_ addrs h n hge
  · intro hh a b hb
    cases hf : subAddrs.find? (fun c => decide ((hh.items c).id = (hh.items a).id)) with
    | none => simp only [hf]
    | some c =>
      simp only [hf]
      exact writeScore_items_ne hh a b _ hb
  · intro hh a
    cases hf : subAddrs.find? (fun c => decide ((hh.items c).id = (hh.items a).id)) with
    | none => simp only [hf]
    | some c => simp only [hf, writeScore_next]

theorem keywordRerankH_frame (bB mB matB : ℚ) (q : String) (h : Heap)
    (addrs : List ℕ) (topk : Option ℕ) :
    (∀ b, b < h.next →
      ((keywordRerankH bB mB matB q h addrs topk).1).items b = h.items b)
      ∧ h.next ≤ ((keywordRerankH bB mB matB q h addrs topk).1).next := by
  simp only [keywordRerankH]
  split_ifs with he
  · exact ⟨fun b _ => rfl, le_refl _⟩
  · obtain ⟨ha1, ha2, ha3⟩ := allocCopies_spec addrs h
    obtain ⟨hf1, hf2⟩ := foldl_write_frame
      (fun hh a => writeScore hh a ((hh.items a).score + keywordBoost bB mB matB q (hh.items a)))
      (fun a => a)
      (fun hh a b hb => writeScore_items_ne hh a b _ hb)
      (fun hh a => writeScore_next hh a _)
      (allocCopies h addrs).2 (allocCopies h addrs).1 h.next
      (fun c hc => (ha3 c hc).1)
    refine ⟨?_, ?_⟩
    · intro b hb
      rw [hf1 b hb, ha2 b hb]
    · rw [hf2]
      exact ha1

theorem semanticRerankH_frame (embedOk : Bool) (simFn : String → Option ℚ)
    (h : Heap) (addrs : List ℕ) (topk : Option ℕ) :
    (∀ b, b < h.next →
      ((semanticRerankH embedOk simFn h addrs topk).1).items b = h.items b)
      ∧ h.next ≤ ((semanticRerankH embedOk simFn h addrs topk).1).next := by
  simp only [semanticRerankH]
  split_ifs with he hok
  · exact ⟨fun b _ => rfl, le_refl _⟩
  · obtain ⟨ha1, ha2, ha3⟩ := allocCopies_spec addrs h
    obtain ⟨hf1, hf2⟩ := foldl_write_frame
      (fun hh a => writeScore hh a ((hh.items a).score + semanticBoost simFn (hh.items a)))
      (fun a => a)
      (fun hh a b hb => writeScore_items_ne hh a b _ hb)
      (fun hh a => writeScore_next hh a _)
      (allocCopies h addrs).2 (allocCopies h addrs).1 h.next
      (fun c hc => (ha3 c hc).1)
    refine ⟨?_, ?_⟩
    · intro b hb
      rw [hf1 b hb, ha2 b hb]
    · rw [hf2]
      exact ha1
  · obtain ⟨ha1, ha2, ha3⟩ := allocCopies_spec addrs h
    exact ⟨fun b hb => ha2 b hb, ha1⟩

theorem ensembleRerankH_frame (q : String) (embedOk : Bool)
    (simFn : String → Option ℚ) (h : Heap) (addrs : List ℕ) (topk : Option ℕ) :
    ∀ b, b < h.next →
      ((ensembleRerankH q embedOk simFn h addrs topk).1).items b = h.items b := by
  simp only [ensembleRerankH]
  split_ifs with he
  · exact fun b _ => rfl
  · intro b hb
    obtain ⟨ha1, ha2, ha3⟩ := allocCopies_spec addrs h
    have hcge : ∀ c ∈ (allocCopies h addrs).2, h.next ≤ c := fun c hc => (ha3 c hc).1
    -- reset-to-zero pass
    obtain ⟨h21, h22⟩ := foldl_write_frame
      (fun hh a => writeScore hh a 0) (fun a => a)
      (fun hh a c hc => writeScore_items_ne hh a c _ hc)
      (fun hh a => writeScore_next hh a _)
      (allocCopies h addrs).2 (allocCopies h addrs).1 h.next hcge
    set h2 := (allocCopies h addrs).2.foldl (fun hh a => writeScore hh a 0)
      (allocCopies h addrs).1 with hh2
    have hnext2 : h.next ≤ h2.next := by
      rw [h22]
      exact ha1
    -- keyword strategy
    obtain ⟨hk1, hk2⟩ := keywordRerankH_frame ((2 : ℚ)/10) ((15 : ℚ)/100) ((1 : ℚ)/10)
      q h2 (allocCopies h addrs).2 none
    set rk := keywordRerankH ((2 : ℚ)/10) ((15 : ℚ)/100) ((1 : ℚ)/10) q h2
      (allocCopies h addrs).2 none with hrk
    have hnextk : h.next ≤ rk.1.next := le_trans hnext2 hk2
    -- first combination pass
    obtain ⟨hc1, hc2⟩ := combineH_frame rk.1 rk.2 ((1 : ℚ)/2)
      (allocCopies h addrs).2 h.next hcge
    set h4 := combineH rk.1 rk.2 ((1 : ℚ)/2) (allocCopies h addrs).2 with hh4
    have hnext4 : h.next ≤ h4.next := by
      rw [hh4, hc2]
      exact hnextk
    -- semantic strategy
    obtain ⟨hs1, hs2⟩ := semanticRerankH_frame embedOk simFn h4
      (allocCopies h addrs).2 none
    set rs := semanticRerankH embedOk simFn h4 (allocCopies h addrs).2 none with hrs
    -- second combination pass
    obtain ⟨hd1, hd2⟩ := combineH_frame rs.1 rs.2 ((1 : ℚ)/2)
      (allocCopies h addrs).2 h.next hcge
    set h6 := combineH rs.1 rs.2 ((1 : ℚ)/2) (allocCopies h addrs).2 with hh6
    -- original-score restoration pass
    obtain ⟨he1, he2⟩ := foldl_write_frame
      (fun hh p => writeScore hh p.1 ((hh.items p.1).score + p.2 * ((2 : ℚ)/10)))
      (fun p => p.1)
      (fun hh p c hc => writeScore_items_ne hh p.1 c _ hc)
      (fun hh p => writeScore_next hh p.1 ((hh.items p.1).score + p.2 * ((2 : ℚ)/10)))
      ((allocCopies h addrs).2.zip ((allocCopies h addrs).2.map
        (fun a => ((allocCopies h addrs).1.items a).score))) h6 h.next
      (fun p hp => hcge p.1 (List.of_mem_zip hp).1)
    rw [he1 b hb, hd1 b hb, hs1 b (lt_of_lt_of_le hb hnext4),
      hc1 b hb, hk1 b (lt_of_lt_of_le hb hnext2), h21 b hb, ha2 b hb]

/-- C10: every reranker strategy (keyword, semantic, ensemble) leaves the
score of every dictionary in the caller's input list unchanged: all boosts
are written to per-item copies at freshly allocated addresses.  (The shallow
copies share the nested metadata dictionaries, which are mutated; the claim
and this theorem concern the top-level score values only.) -/
theorem rerank_preserves_input_scores (bB mB matB : ℚ) (q : String)
    (embedOk : Bool) (simFn : String → Option ℚ) (h : Heap) (addrs : List ℕ)
    (topk : Option ℕ) (hvalid : ∀ a ∈ addrs, a < h.next) :
    (∀ a ∈ addrs,
      (((keywordRerankH bB mB matB q h addrs topk).1).items a).score
        = (h.items a).score) ∧
    (∀ a ∈ addrs,
      (((semanticRerankH embedOk simFn h addrs topk).1).items a).score
        = (h.items a).score) ∧
    (∀ a ∈ addrs,
      (((ensembleRerankH q embedOk simFn h addrs topk).1).items a).score
        = (h.items a).score) := by
  refine ⟨?_, ?_, ?_⟩
  · intro a ha
    rw [(keywordRerankH_frame bB mB matB q h addrs topk).1 a (hvalid a ha)]
  · intro a ha
    rw [(semanticRerankH_frame embedOk simFn h addrs topk).1 a (hvalid a ha)]
  · intro a ha
    rw [ensembleRerankH_frame q embedOk simFn h addrs topk a (hvalid a ha)]

/-- Witness for C10's theorem at a concrete input: a one-item heap. -/
theorem rerank_preserves_input_scores_witness :
    (((ensembleRerankH "gucci" true (fun _ => some ((1 : ℚ)/2))
        ⟨fun _ => ⟨"i1", "gucci", "", "", [], "", none, 1⟩, 1⟩ [0] none).1).items 0).score
      = ((⟨fun _ => ⟨"i1", "gucci", "", "", [], "", none, 1⟩, 1⟩ : Heap).items 0).score :=
  (rerank_preserves_input_scores ((2 : ℚ)/10) ((15 : ℚ)/100) ((1 : ℚ)/10) "gucci"
    true (fun _ => some ((1 : ℚ)/2))
    ⟨fun _ => ⟨"i1", "gucci", "", "", [], "", none, 1⟩, 1⟩ [0] none
    (by intro a ha; rcases List.mem_singleton.mp ha with rfl; decide)).2.2 0 (by decide)

/-! ## Mock-table price estimator (src/Backend/services/pricing_logic.py)

`estimate_price` here looks a brand/model up in a hard-coded price table.
`""` encodes an absent string field.  Python `int(x)` on the non-negative
quantities below is `⌊x⌋`; Python's `round` differs from Lean's only on
exact halves (banker's rounding), which no claim touches. -/

structure SvcItem where
  brand : String
  designer : String
  model : String
  style : String
  condition : String
deriving DecidableEq

/-- `item.get('brand','') or item.get('designer','')`. -/
def effBrand (it : SvcItem) : String :=
  if it.brand ≠ "" then it.brand else it.designer

/-- `item.get('model','') or item.get('style','')`. -/
def effModel (it : SvcItem) : String :=
  if it.model ≠ "" then it.model else it.style

/-- The hard-coded `base_prices` table. -/
def basePrices : List (String × List (String × ℚ)) :=
  [("chanel", [("classic flap", 8800), ("boy bag", 5200), ("2.55", 7000),
      ("gabrielle", 4200), ("wallet on chain", 2750)]),
   ("louis vuitton", [("neverfull", 1540), ("speedy", 1200), ("pochette metis", 2030),
      ("alma", 1620), ("keepall", 1990)]),
   ("hermes", [("birkin", 12000), ("kelly", 10000), ("constance", 7800),
      ("garden party", 3700), ("lindy", 7800)]),
   ("gucci", [("marmont", 2300), ("dionysus", 2150), ("ophidia", 1200),
      ("bamboo", 2800), ("jackie", 1980)]),
   ("dior", [("lady dior", 5300), ("saddle", 3800), ("book tote", 3200),
      ("diorama", 3400), ("montaigne", 3500)]),
   ("prada", [("galleria", 2700), ("cahier", 3100), ("nylon backpack", 1690),
      ("double bag", 3200), ("re-edition", 1200)]),
   ("celine", [("luggage", 2900), ("belt bag", 2500), ("trio", 1150),
      ("box", 4350), ("phantom", 2200)]),
   ("bottega veneta", [("cassette", 3800), ("pouch", 2800), ("arco", 2800),
      ("jodie", 2250), ("veneta", 2100)]),
   ("fendi", [("baguette", 2950), ("peekaboo", 4550), ("by the way", 1750),
      ("kan i", 2490), ("sunshine shopper", 2290)]),
   ("balenciaga", [("city", 1950), ("hourglass", 2250), ("neo classic", 2090),
      ("le cagole", 2300), ("motorcycle", 1850)]),
   ("cartier", [("love bracelet", 6900), ("juste un clou", 7250), ("trinity ring", 1320),
      ("panthere watch", 4000), ("santos watch", 7000)]),
   ("rolex", [("submariner", 9150), ("datejust", 7050), ("daytona", 14550),
      ("gmt master", 10750), ("day date", 36550)]),
   ("omega", [("speedmaster", 6300), ("seamaster", 5200), ("constellation", 5900),
      ("de ville", 4900), ("aqua terra", 5700)]),
   ("patek philippe", [("nautilus", 34000), ("calatrava", 23000), ("aquanaut", 21000),
      ("grand complications", 80000), ("twenty~4", 13000)]),
   ("audemars piguet", [("royal oak", 32000), ("royal oak offshore", 45000),
      ("code 11.59", 26000), ("millenary", 28000), ("jules audemars", 25000)])]

/-- `condition_mapping`, in insertion (iteration) order. -/
def conditionMapping : List (String × String) :=
  [("mint", "new"), ("pristine", "new"), ("brand new", "new"),
   ("like new", "excellent"), ("near mint", "excellent"),
   ("very good", "very good"), ("used", "good"), ("normal wear", "good"),
   ("worn", "good"), ("fair", "fair"), ("acceptable", "fair"),
   ("poor", "poor"), ("damaged", "poor"), ("for parts", "poor")]

/-- `condition_adjustments`. -/
def conditionAdjustments : List (String × ℚ) :=
  [("new", (11 : ℚ)/10), ("excellent", 1), ("very good", (9 : ℚ)/10),
   ("good", (3 : ℚ)/4), ("fair", (3 : ℚ)/5), ("poor", (2 : ℚ)/5)]

/-- First mapping key that occurs as a substring of the lowercased condition;
default "excellent". -/
def standardizeCondition (condLower : String) : String :=
  ((conditionMapping.find? (fun p => strContains p.1 condLower)).map Prod.snd).getD
    "excellent"

/-- Base price, confidence label and integer price range from the table:
exact model match → "high"; substring fuzzy match → average of matches,
"medium"; brand present but no model match → brand average, "low"; brand
absent → corpus-wide average, "very low". -/
def svcLookup (bl ml : String) : ℚ × String × ℤ × ℤ :=
  match (basePrices.find? (fun p => decide (p.1 = bl))).map Prod.snd with
  | some brandData =>
    match (brandData.find? (fun p => decide (p.1 = ml))).map Prod.snd with
    | some bp => (bp, "high", ⌊bp * (85 : ℚ)/100⌋, ⌊bp * (115 : ℚ)/100⌋)
    | none =>
      let fuzzy := brandData.filter (fun p => strContains p.1 ml || strContains ml p.1)
      if fuzzy = [] then
        let bp := (brandData.map Prod.snd).sum / (brandData.length : ℚ)
        (bp, "low", ⌊bp * (3 : ℚ)/5⌋, ⌊bp * (7 : ℚ)/5⌋)
      else
        let bp := (fuzzy.map Prod.snd).sum / (fuzzy.length : ℚ)
        (bp, "medium", ⌊bp * (3 : ℚ)/4⌋, ⌊bp * (5 : ℚ)/4⌋)
  | none =>
    let allP := (basePrices.map (fun p => p.2.map Prod.snd)).flatten
    let bp := allP.sum / (allP.length : ℚ)
    (bp, "very low", ⌊bp * (1 : ℚ)/2⌋, ⌊bp * (3 : ℚ)/2⌋)

structure SvcResult where
  estimated_price : ℤ
  price_range : ℤ × ℤ
  confidence : String
  condition_adjusted : Option String
  condition_factor : Option ℚ
  base_price : Option ℤ
  trend_score : Option ℚ
  trend_factor : Option ℚ
  error : Option String
deriving DecidableEq

/-- services/pricing_logic.py `estimate_price`. -/
def estimatePriceSvc (item : SvcItem) (trendScore : Option ℚ) : SvcResult :=
  if effBrand item = "" ∨ effModel item = "" then
    { estimated_price := 0, price_range := (0, 0), confidence := "none",
      condition_adjusted := none, condition_factor := none, base_price := none,
      trend_score := none, trend_factor := none,
      error := some "Missing brand or model information" }
  else
    let standardized := standardizeCondition (pyLower item.condition)
    let lk := svcLookup (pyLower (effBrand item)) (pyLower (effModel item))
    let cf := ((conditionAdjustments.find? (fun p => decide (p.1 = standardized))).map
      Prod.snd).getD 1
    let adjusted0 := lk.1 * cf
    match trendScore with
    | some ts =>
      let tf := (85 : ℚ)/100 + ts * ((3 : ℚ)/10)
      { estimated_price := round (adjusted0 * tf / 10) * 10,
        price_range := (⌊(lk.2.2.1 : ℚ) * tf⌋, ⌊(lk.2.2.2 : ℚ) * tf⌋),
        confidence := lk.2.1, condition_adjusted := some standardized,
        condition_factor := some cf, base_price := some ⌊lk.1⌋,
        trend_score := some ts, trend_factor := some tf, error := none }
    | none =>
      { estimated_price := round (adjusted0 / 10) * 10,
        price_range := (lk.2.2.1, lk.2.2.2),
        confidence := lk.2.1, condition_adjusted := some standardized,
        condition_factor := some cf, base_price := some ⌊lk.1⌋,
        trend_score := none, trend_factor := none, error := none }

/-- Confidence labelling of RAGPricingEngine.estimate_price (count of valid
comparable prices). -/
def ragConfidence (count : ℕ) : String :=
  if 5 ≤ count then "high" else if 2 ≤ count then "medium" else "low"

theorem svcLookup_conf_mem (bl ml : String) :
    (svcLookup bl ml).2.1 ∈ (["very low", "low", "medium", "high"] : List String) := by
  rw [svcLookup]
  cases hbd : (basePrices.find? (fun p => decide (p.1 = bl))).map Prod.snd with
  | none => simp
  | some brandData =>
    cases hmd : (brandData.find? (fun p => decide (p.1 = ml))).map Prod.snd with
    | none =>
      by_cases hf : brandData.filter
          (fun p => strContains p.1 ml || strContains ml p.1) = []
      · simp [hmd, hf]
      · simp [hmd, hf]
    | some bp => simp [hmd]

theorem svcLookup_conf_no_brand (bl ml : String)
    (h : basePrices.find? (fun p => decide (p.1 = bl)) = none) :
    (svcLookup bl ml).2.1 = "very low" := by
  rw [svcLookup, h]
  rfl

theorem estimatePriceSvc_conf (item : SvcItem) (ts : Option ℚ)
    (h : ¬ (effBrand item = "" ∨ effModel item = "")) :
    (estimatePriceSvc item ts).confidence
        = (svcLookup (pyLower (effBrand item)) (pyLower (effModel item))).2.1
      ∧ (estimatePriceSvc item ts).error = none := by
  simp only [estimatePriceSvc]
  rw [if_neg h]
  cases ts with
  | none => exact ⟨rfl, rfl⟩
  | some t => exact ⟨rfl, rfl⟩

/-- C9: every non-error result of the mock-table estimator carries a
confidence label in {very low, low, medium, high}; the no-brand-match
corpus-wide fallback is labelled exactly "very low" (a distinct degraded
label); and the RAG engine's count-based labels also stay in the set. -/
theorem confidence_labels (item : SvcItem) (ts : Option ℚ) (n : ℕ) :
    ((estimatePriceSvc item ts).error = none →
      (estimatePriceSvc item ts).confidence
        ∈ (["very low", "low", "medium", "high"] : List String)) ∧
    (effBrand item ≠ "" → effModel item ≠ "" →
      basePrices.find? (fun p => decide (p.1 = pyLower (effBrand item))) = none →
      (estimatePriceSvc item ts).confidence = "very low") ∧
    ragConfidence n ∈ (["very low", "low", "medium", "high"] : List String) := by
  refine ⟨?_, ?_, ?_⟩
  · intro herr
    by_cases h : effBrand item = "" ∨ effModel item = ""
    · exfalso
      simp only [estimatePriceSvc, if_pos h] at herr
      exact Option.noConfusion herr
    · rw [(estimatePriceSvc_conf item ts h).1]
      exact svcLookup_conf_mem _ _
  · intro hb hm hn
    rw [(estimatePriceSvc_conf item ts (not_or.mpr ⟨hb, hm⟩)).1]
    exact svcLookup_conf_no_brand _ _ hn
  · rw [ragConfidence]
    split_ifs <;> simp

/-- Witness for C9's theorem at a concrete input: the unknown brand
"unknownbrand" takes the corpus-wide "very low" path. -/
theorem confidence_labels_witness :
    (estimatePriceSvc ⟨"unknownbrand", "", "somemodel", "", "excellent"⟩ none).confidence
        = "very low"
      ∧ ragConfidence 3 ∈ (["very low", "low", "medium", "high"] : List String) := by
  refine ⟨?_, (confidence_labels ⟨"unknownbrand", "", "somemodel", "", "excellent"⟩
    none 3).2.2⟩
  exact (confidence_labels ⟨"unknownbrand", "", "somemodel", "", "excellent"⟩ none 3).2.1
    (by decide) (by decide) (by decide)

end LuxPricer
